import Mathlib

/-
Verification of the pw_multisink drop-count protocol of this repository.

The repository ships the public header
src/pw_multisink/public/pw_multisink/multisink.h, which declares the
MultiSink operations (HandleEntry, HandleDropped, AttachDrain, DetachDrain,
Clear) and the Drain pull operation (GetEntry) together with their
documented contracts; the implementation file (multisink.cc) and the
prefixed-entry ring buffer implementation are not part of src/.  The
definitions below therefore carry doc comments starting with
Modelled from the spec, and follow the spec (sections 3, 4, 6, 8 of
spec.md) together with the contracts documented in the header.

Where the spec conflicts with itself, the model follows the parts that are
mutually consistent: the concrete end-to-end scenarios S1 to S7 of
section 8, the invariants of section 8, and the header contract for
GetEntry (drop_count_out is the number of entries dropped since the last
call when the read returns Ok or OutOfRange, and zero otherwise).  In
particular the drop reported on a successful pull of an entry with
embedded sequence ID s_e by a drain whose last-handled ID is L is
(s_e - L) mod 2^32 when the drain is attached with L set to S; the formula
written in section 4.B.1, (s_e - L - 1) mod 2^32 plus a separate
per-cursor eviction counter, contradicts scenarios S1, S4 and S5 and is
settled as such by the C1, C7 and C8 theorems below.

The model keeps, next to every 32-bit wrapped quantity, a ghost unwrapped
counterpart (rawNext for the sequence counter, lastRaw for the
last-handled ID, raw inside each stored entry) used only to state and
prove the invariants; the wrapped fields are the ones the code computes
with.
-/

namespace PwMultiSink

/-- Modulus of all 32-bit sequence arithmetic, 2^32. -/
def U32 : Nat := 4294967296

/-- Fuel-driven helper for the byte length of an unsigned base-128 varint. -/
def varintSizeAux : Nat → Nat → Nat
  | 0, _ => 1
  | fuel + 1, n => if n < 128 then 1 else 1 + varintSizeAux fuel (n / 128)

/-- Byte length of the unsigned base-128 varint encoding of n. -/
def varintSize (n : Nat) : Nat := varintSizeAux n n

/-- Modelled from the spec: a frame stored in the prefixed-entry ring
buffer (section 3 and section 6 of spec.md; the ring buffer implementation
is not in src/).  seq is the embedded 32-bit sequence ID carried by the
preamble varint, payload the user bytes.  raw is a ghost unwrapped
counterpart of seq used only in proofs. -/
structure Entry where
  seq : Nat
  raw : Nat
  payload : List Nat
deriving DecidableEq

/-- Byte length of the length-delimited region of a frame: the sequence-ID
preamble varint followed by the user bytes. -/
def lenRest (e : Entry) : Nat := varintSize e.seq + e.payload.length

/-- Total on-buffer byte length of a frame: the length varint followed by
the length-delimited region. -/
def framedSize (e : Entry) : Nat := varintSize (lenRest e) + lenRest e

/-- Total bytes occupied by a list of frames. -/
def usedBytes (es : List Entry) : Nat := (es.map framedSize).sum

/-- Modelled from the spec: the state of one MultiSink with one drain and
its attached listeners (multisink.cc is not in src/).  entries is the list
of frames currently readable by the drain, oldest first; seqId is the
32-bit next-sequence-ID counter S; lastHandled is the drain last-handled
sequence ID L; attached is the drain back pointer (null when detached);
listeners counts attached listeners and notifyCount the
OnNewEntryAvailable invocations delivered to them.  rawNext, lastRaw,
attachSeq, attachRaw, reportedSum and receivedCount are ghost fields for
the accounting invariant: attachSeq and attachRaw record S when the drain
attached, reportedSum sums the drop counts reported on Ok or OutOfRange
returns since the attach, receivedCount counts the entries the drain
received since the attach. -/
structure State where
  cap : Nat
  entries : List Entry
  seqId : Nat
  rawNext : Nat
  listeners : Nat
  notifyCount : Nat
  attached : Bool
  lastHandled : Nat
  lastRaw : Nat
  attachSeq : Nat
  attachRaw : Nat
  reportedSum : Nat
  receivedCount : Nat
deriving DecidableEq

/-- Modelled from the spec: a freshly constructed MultiSink over a byte
region of cap bytes, with a detached drain whose last-handled ID is 0
(section 3 of spec.md: a drain is constructed detached with L = 0). -/
def init (cap : Nat) : State where
  cap := cap
  entries := []
  seqId := 0
  rawNext := 0
  listeners := 0
  notifyCount := 0
  attached := false
  lastHandled := 0
  lastRaw := 0
  attachSeq := 0
  attachRaw := 0
  reportedSum := 0
  receivedCount := 0

/-- Modelled from the spec: the overwrite-on-full eviction loop of the
ring buffer PushBack (section 4.A of spec.md): evict the oldest frame,
repeat until the new frame of need bytes fits in cap. -/
def evict (cap need : Nat) : List Entry → List Entry
  | [] => []
  | e :: rest =>
      if usedBytes (e :: rest) + need ≤ cap then e :: rest
      else evict cap need rest

/-- Modelled from the spec: MultiSink HandleEntry (multisink.cc is not in
src/).  Per the header contract in multisink.h, the sequence ID always
increments as a result of calling HandleEntry, regardless of whether
pushing the entry succeeds; the frame is stored only when the payload is
nonempty and the framed entry fits in the buffer, evicting the oldest
frames as needed; listeners are notified. -/
def handleEntry (σ : State) (payload : List Nat) : State :=
  let e : Entry := ⟨σ.seqId, σ.rawNext, payload⟩
  { σ with
    seqId := (σ.seqId + 1) % U32
    rawNext := σ.rawNext + 1
    notifyCount := σ.notifyCount + σ.listeners
    entries :=
      if 0 < payload.length ∧ framedSize e ≤ σ.cap then
        evict σ.cap (framedSize e) σ.entries ++ [e]
      else σ.entries }

/-- Modelled from the spec: MultiSink HandleDropped (multisink.cc is not
in src/).  Advances S by k modulo 2^32, writes no frame, notifies the
attached listeners. -/
def handleDropped (σ : State) (k : Nat) : State :=
  { σ with
    seqId := (σ.seqId + k) % U32
    rawNext := σ.rawNext + k
    notifyCount := σ.notifyCount + σ.listeners }

/-- Modelled from the spec: MultiSink Clear (multisink.cc is not in src/).
Removes all data from the buffer; the sequence ID is not modified. -/
def clear (σ : State) : State := { σ with entries := [] }

/-- Modelled from the spec: MultiSink AttachDrain (multisink.cc is not in
src/).  Precondition: the drain is detached (violations leave the state
unchanged).  The drain cursor is attached at the current write offset, so
no pre-existing entry is visible (the model tracks exactly the
drain-visible frames, hence entries resets to the empty list), and L is
set to the current sequence ID S.  The ghost accounting fields restart. -/
def attachDrain (σ : State) : State :=
  if σ.attached then σ
  else
    { σ with
      attached := true
      entries := []
      lastHandled := σ.seqId
      lastRaw := σ.rawNext
      attachSeq := σ.seqId
      attachRaw := σ.rawNext
      reportedSum := 0
      receivedCount := 0 }

/-- Modelled from the spec: MultiSink DetachDrain (multisink.cc is not in
src/).  Precondition: the drain is attached (violations leave the state
unchanged). -/
def detachDrain (σ : State) : State :=
  if σ.attached then { σ with attached := false } else σ

/-- Modelled from the spec: MultiSink AttachListener (multisink.cc is not
in src/). -/
def attachListener (σ : State) : State :=
  { σ with listeners := σ.listeners + 1 }

/-- Modelled from the spec: MultiSink DetachListener (multisink.cc is not
in src/). -/
def detachListener (σ : State) : State :=
  { σ with listeners := σ.listeners - 1 }

/-- Result statuses of Drain GetEntry, from the header contract in
multisink.h. -/
inductive Status where
  | ok
  | outOfRange
  | failedPrecondition
  | resourceExhausted
deriving DecidableEq

/-- Output of one Drain GetEntry call: the status, the user bytes (empty
unless Ok), and drop_count_out.  seq is the embedded sequence ID of the
entry that was read (0 unless Ok) and raw its ghost unwrapped counterpart;
both are specification-level observations. -/
structure PullOut where
  status : Status
  payload : List Nat
  seq : Nat
  raw : Nat
  dropCount : Nat
deriving DecidableEq

/-- Modelled from the spec: the attached part of the drain pull, split on
the readable frames.  OutOfRange when no entry is available, reporting the
entries dropped since the last call, that is the sequence gap
(S - L) mod 2^32, and catching L up to S; ResourceExhausted when the
buffer cannot hold the length-delimited region of the next frame, leaving
the cursor unmoved and setting drop_count_out to zero per the header
contract; otherwise Ok with the user bytes, reporting (s_e - L) mod 2^32
dropped entries and setting L to s_e + 1 mod 2^32. -/
def getEntryAux (σ : State) (bufSize : Nat) : List Entry → PullOut × State
  | [] =>
      (⟨Status.outOfRange, [], 0, 0, (σ.seqId + U32 - σ.lastHandled) % U32⟩,
       { σ with
         lastHandled := σ.seqId
         lastRaw := σ.rawNext
         reportedSum := σ.reportedSum + (σ.seqId + U32 - σ.lastHandled) % U32 })
  | e :: rest =>
      if lenRest e ≤ bufSize then
        (⟨Status.ok, e.payload, e.seq, e.raw, (e.seq + U32 - σ.lastHandled) % U32⟩,
         { σ with
           entries := rest
           lastHandled := (e.seq + 1) % U32
           lastRaw := e.raw + 1
           reportedSum := σ.reportedSum + (e.seq + U32 - σ.lastHandled) % U32
           receivedCount := σ.receivedCount + 1 })
      else
        (⟨Status.resourceExhausted, [], 0, 0, 0⟩, σ)

/-- Modelled from the spec: Drain GetEntry and the MultiSink internal read
path it calls (multisink.cc is not in src/).  FailedPrecondition with a
zero drop count when the drain is detached; otherwise the pull proceeds on
the frames readable by the drain. -/
def getEntry (σ : State) (bufSize : Nat) : PullOut × State :=
  if σ.attached = false then
    (⟨Status.failedPrecondition, [], 0, 0, 0⟩, σ)
  else
    getEntryAux σ bufSize σ.entries

/-- One public operation on the MultiSink or its drain. -/
inductive Op where
  | handleEntry (payload : List Nat)
  | handleDropped (k : Nat)
  | clear
  | attachDrain
  | detachDrain
  | attachListener
  | detachListener
  | pull (bufSize : Nat)
deriving DecidableEq

/-- Apply one operation to the state. -/
def step (σ : State) : Op → State
  | Op.handleEntry p => handleEntry σ p
  | Op.handleDropped k => handleDropped σ k
  | Op.clear => clear σ
  | Op.attachDrain => attachDrain σ
  | Op.detachDrain => detachDrain σ
  | Op.attachListener => attachListener σ
  | Op.detachListener => detachListener σ
  | Op.pull b => (getEntry σ b).2

/-- State reached by a list of operations from a fresh MultiSink over a
cap byte buffer. -/
def run (cap : Nat) (ops : List Op) : State :=
  ops.foldl step (init cap)

/-- Sequence IDs consumed from the counter S by one operation: one per
HandleEntry, k per HandleDropped, none otherwise. -/
def assignedCount : Op → Nat
  | Op.handleEntry _ => 1
  | Op.handleDropped k => k
  | _ => 0

/-- Writer-side operations: the ones that touch only the sink, never the
drain cursor. -/
def isWriterOp : Op → Bool
  | Op.handleEntry _ => true
  | Op.handleDropped _ => true
  | Op.clear => true
  | _ => false

/-- Basic positivity of the 32-bit modulus. -/
theorem U32_pos : 0 < U32 := by decide

/-- Wrapped subtraction agrees with unwrapped subtraction modulo 2^32:
for b less than or equal to a, computing (a mod 2^32) + 2^32 - (b mod
2^32) and reducing gives (a - b) mod 2^32. -/
theorem drop_mod (a b : Nat) (h : b ≤ a) :
    (a % U32 + U32 - b % U32) % U32 = (a - b) % U32 := by
  simp only [U32] at *
  omega

/-- The eviction loop returns a sublist (in fact a suffix) of its input. -/
theorem evict_sublist (cap need : Nat) : ∀ es : List Entry, (evict cap need es).Sublist es
  | [] => by simp [evict]
  | e :: rest => by
      unfold evict
      split
      · exact List.Sublist.refl _
      · exact List.Sublist.cons _ (evict_sublist cap need rest)

/-- State invariant tying the 32-bit wrapped fields to their ghost
unwrapped counterparts: the wrapped counters are the reductions of the raw
ones, the last-handled ID never exceeds the sequence counter, stored
frames carry raw IDs at least the last-handled ID and below the sequence
counter, stored frames are strictly ordered by raw ID, and the drop
counts reported plus entries received since the attach account exactly
for the raw IDs the drain has handled. -/
structure SinkInv (σ : State) : Prop where
  hS : σ.seqId = σ.rawNext % U32
  hL : σ.lastHandled = σ.lastRaw % U32
  hA : σ.attachSeq = σ.attachRaw % U32
  hALe : σ.attachRaw ≤ σ.lastRaw
  hLLe : σ.lastRaw ≤ σ.rawNext
  hEnt : ∀ e ∈ σ.entries, e.seq = e.raw % U32 ∧ σ.lastRaw ≤ e.raw ∧ e.raw < σ.rawNext
  hSorted : σ.entries.Pairwise fun a b => a.raw < b.raw
  hAcc : (σ.attachRaw + σ.reportedSum + σ.receivedCount) % U32 = σ.lastRaw % U32

/-- The invariant holds in the initial state. -/
theorem inv_init (cap : Nat) : SinkInv (init cap) := by
  constructor <;> simp [init]

/-- HandleEntry preserves the invariant. -/
theorem inv_handleEntry (σ : State) (p : List Nat) (h : SinkInv σ) : SinkInv (handleEntry σ p) := by
  obtain ⟨hS, hL, hA, hALe, hLLe, hEnt, hSorted, hAcc⟩ := h
  refine ⟨?_, hL, hA, hALe, ?_, ?_, ?_, hAcc⟩
  · show (σ.seqId + 1) % U32 = (σ.rawNext + 1) % U32
    rw [hS]; simp only [U32]; omega
  · show σ.lastRaw ≤ σ.rawNext + 1
    omega
  · show ∀ e ∈ (if 0 < p.length ∧ framedSize ⟨σ.seqId, σ.rawNext, p⟩ ≤ σ.cap then
        evict σ.cap (framedSize ⟨σ.seqId, σ.rawNext, p⟩) σ.entries ++ [⟨σ.seqId, σ.rawNext, p⟩]
      else σ.entries),
      e.seq = e.raw % U32 ∧ σ.lastRaw ≤ e.raw ∧ e.raw < σ.rawNext + 1
    split
    · intro x hx
      rcases List.mem_append.mp hx with h1 | h2
      · obtain ⟨g1, g2, g3⟩ := hEnt x ((evict_sublist _ _ _).subset h1)
        exact ⟨g1, g2, by omega⟩
      · have hx2 : x = ⟨σ.seqId, σ.rawNext, p⟩ := by simpa using h2
        subst hx2
        exact ⟨hS, hLLe, Nat.lt_succ_self σ.rawNext⟩
    · intro x hx
      obtain ⟨g1, g2, g3⟩ := hEnt x hx
      exact ⟨g1, g2, by omega⟩
  · show List.Pairwise (fun a b => a.raw < b.raw)
      (if 0 < p.length ∧ framedSize ⟨σ.seqId, σ.rawNext, p⟩ ≤ σ.cap then
        evict σ.cap (framedSize ⟨σ.seqId, σ.rawNext, p⟩) σ.entries ++ [⟨σ.seqId, σ.rawNext, p⟩]
      else σ.entries)
    split
    · rw [List.pairwise_append]
      refine ⟨hSorted.sublist (evict_sublist _ _ _), by simp, ?_⟩
      intro a ha b hb
      have hb2 : b = ⟨σ.seqId, σ.rawNext, p⟩ := by simpa using hb
      rw [hb2]
      exact (hEnt a ((evict_sublist _ _ _).subset ha)).2.2
    · exact hSorted

/-- HandleDropped preserves the invariant. -/
theorem inv_handleDropped (σ : State) (k : Nat) (h : SinkInv σ) : SinkInv (handleDropped σ k) := by
  obtain ⟨hS, hL, hA, hALe, hLLe, hEnt, hSorted, hAcc⟩ := h
  refine ⟨?_, hL, hA, hALe, ?_, ?_, hSorted, hAcc⟩
  · show (σ.seqId + k) % U32 = (σ.rawNext + k) % U32
    rw [hS]; simp only [U32]; omega
  · show σ.lastRaw ≤ σ.rawNext + k
    omega
  · show ∀ x ∈ σ.entries, x.seq = x.raw % U32 ∧ σ.lastRaw ≤ x.raw ∧ x.raw < σ.rawNext + k
    intro x hx
    obtain ⟨g1, g2, g3⟩ := hEnt x hx
    exact ⟨g1, g2, by omega⟩

/-- Clear preserves the invariant. -/
theorem inv_clear (σ : State) (h : SinkInv σ) : SinkInv (clear σ) := by
  obtain ⟨hS, hL, hA, hALe, hLLe, hEnt, hSorted, hAcc⟩ := h
  exact ⟨hS, hL, hA, hALe, hLLe, (by intro x hx; cases hx), List.Pairwise.nil, hAcc⟩

/-- AttachDrain preserves the invariant. -/
theorem inv_attachDrain (σ : State) (h : SinkInv σ) : SinkInv (attachDrain σ) := by
  obtain ⟨hS, hL, hA, hALe, hLLe, hEnt, hSorted, hAcc⟩ := h
  unfold attachDrain
  split
  · exact ⟨hS, hL, hA, hALe, hLLe, hEnt, hSorted, hAcc⟩
  · exact ⟨hS, hS, hS, le_refl _, le_refl _, (by intro x hx; cases hx),
      List.Pairwise.nil, (by simp)⟩

/-- DetachDrain preserves the invariant. -/
theorem inv_detachDrain (σ : State) (h : SinkInv σ) : SinkInv (detachDrain σ) := by
  obtain ⟨hS, hL, hA, hALe, hLLe, hEnt, hSorted, hAcc⟩ := h
  unfold detachDrain
  split
  · exact ⟨hS, hL, hA, hALe, hLLe, hEnt, hSorted, hAcc⟩
  · exact ⟨hS, hL, hA, hALe, hLLe, hEnt, hSorted, hAcc⟩

/-- AttachListener preserves the invariant. -/
theorem inv_attachListener (σ : State) (h : SinkInv σ) : SinkInv (attachListener σ) := by
  obtain ⟨hS, hL, hA, hALe, hLLe, hEnt, hSorted, hAcc⟩ := h
  exact ⟨hS, hL, hA, hALe, hLLe, hEnt, hSorted, hAcc⟩

/-- DetachListener preserves the invariant. -/
theorem inv_detachListener (σ : State) (h : SinkInv σ) : SinkInv (detachListener σ) := by
  obtain ⟨hS, hL, hA, hALe, hLLe, hEnt, hSorted, hAcc⟩ := h
  exact ⟨hS, hL, hA, hALe, hLLe, hEnt, hSorted, hAcc⟩

/-- The drain pull preserves the invariant. -/
theorem inv_getEntry (σ : State) (b : Nat) (h : SinkInv σ) : SinkInv (getEntry σ b).2 := by
  obtain ⟨hS, hL, hA, hALe, hLLe, hEnt, hSorted, hAcc⟩ := h
  unfold getEntry
  by_cases hatt : σ.attached = false
  · rw [if_pos hatt]
    exact ⟨hS, hL, hA, hALe, hLLe, hEnt, hSorted, hAcc⟩
  · rw [if_neg hatt]
    rcases hE : σ.entries with _ | ⟨e, rest⟩
    · simp only [getEntryAux]
      refine ⟨hS, hS, hA, le_trans hALe hLLe, le_refl _, ?_, hSorted, ?_⟩
      · show ∀ x ∈ σ.entries, x.seq = x.raw % U32 ∧ σ.rawNext ≤ x.raw ∧ x.raw < σ.rawNext
        rw [hE]; intro x hx; cases hx
      · show (σ.attachRaw + (σ.reportedSum + (σ.seqId + U32 - σ.lastHandled) % U32) +
            σ.receivedCount) % U32 = σ.rawNext % U32
        rw [hS, hL, drop_mod σ.rawNext σ.lastRaw hLLe]
        simp only [U32] at hAcc ⊢
        omega
    · simp only [getEntryAux]
      rw [hE] at hEnt hSorted
      obtain ⟨he_seq, he_ge, he_lt⟩ := hEnt e (List.mem_cons_self e rest)
      obtain ⟨hPe, hPrest⟩ := List.pairwise_cons.mp hSorted
      by_cases hfit : lenRest e ≤ b
      · rw [if_pos hfit]
        refine ⟨hS, ?_, hA, ?_, ?_, ?_, hPrest, ?_⟩
        · show (e.seq + 1) % U32 = (e.raw + 1) % U32
          rw [he_seq]; simp only [U32]; omega
        · show σ.attachRaw ≤ e.raw + 1
          omega
        · show e.raw + 1 ≤ σ.rawNext
          omega
        · show ∀ x ∈ rest, x.seq = x.raw % U32 ∧ e.raw + 1 ≤ x.raw ∧ x.raw < σ.rawNext
          intro x hx
          obtain ⟨g1, g2, g3⟩ := hEnt x (List.mem_cons_of_mem e hx)
          exact ⟨g1, by have := hPe x hx; omega, g3⟩
        · show (σ.attachRaw + (σ.reportedSum + (e.seq + U32 - σ.lastHandled) % U32) +
              (σ.receivedCount + 1)) % U32 = (e.raw + 1) % U32
          rw [he_seq, hL, drop_mod e.raw σ.lastRaw he_ge]
          simp only [U32] at hAcc ⊢
          omega
      · rw [if_neg hfit]
        refine ⟨hS, hL, hA, hALe, hLLe, ?_, ?_, hAcc⟩
        · show ∀ x ∈ σ.entries, x.seq = x.raw % U32 ∧ σ.lastRaw ≤ x.raw ∧ x.raw < σ.rawNext
          rw [hE]; exact hEnt
        · show σ.entries.Pairwise fun a b => a.raw < b.raw
          rw [hE]; exact hSorted

/-- Every operation preserves the invariant. -/
theorem inv_step (σ : State) (op : Op) (h : SinkInv σ) : SinkInv (step σ op) := by
  cases op with
  | handleEntry p => exact inv_handleEntry σ p h
  | handleDropped k => exact inv_handleDropped σ k h
  | clear => exact inv_clear σ h
  | attachDrain => exact inv_attachDrain σ h
  | detachDrain => exact inv_detachDrain σ h
  | attachListener => exact inv_attachListener σ h
  | detachListener => exact inv_detachListener σ h
  | pull b => exact inv_getEntry σ b h

/-- The invariant is preserved by any list of operations. -/
theorem inv_foldl (l : List Op) (σ : State) (h : SinkInv σ) : SinkInv (l.foldl step σ) := by
  induction l generalizing σ with
  | nil => exact h
  | cons op rest ih => exact ih (step σ op) (inv_step σ op h)

/-- Every reachable state satisfies the invariant. -/
theorem inv_run (cap : Nat) (ops : List Op) : SinkInv (run cap ops) :=
  inv_foldl ops (init cap) (inv_init cap)

/-- The ghost last-handled counter never decreases under any operation. -/
theorem lastRaw_le_step (σ : State) (op : Op) (h : SinkInv σ) : σ.lastRaw ≤ (step σ op).lastRaw := by
  cases op with
  | handleEntry p => exact le_refl _
  | handleDropped k => exact le_refl _
  | clear => exact le_refl _
  | attachDrain =>
      show σ.lastRaw ≤ (attachDrain σ).lastRaw
      unfold attachDrain
      split
      · exact le_refl _
      · exact h.hLLe
  | detachDrain =>
      show σ.lastRaw ≤ (detachDrain σ).lastRaw
      unfold detachDrain
      split
      · exact le_refl _
      · exact le_refl _
  | attachListener => exact le_refl _
  | detachListener => exact le_refl _
  | pull b =>
      show σ.lastRaw ≤ (getEntry σ b).2.lastRaw
      unfold getEntry
      by_cases hatt : σ.attached = false
      · rw [if_pos hatt]
      · rw [if_neg hatt]
        rcases hE : σ.entries with _ | ⟨e, rest⟩
        · simp only [getEntryAux]
          exact h.hLLe
        · simp only [getEntryAux]
          by_cases hfit : lenRest e ≤ b
          · rw [if_pos hfit]
            have := (h.hEnt e (by rw [hE]; exact List.mem_cons_self e rest)).2.1
            show σ.lastRaw ≤ e.raw + 1
            omega
          · rw [if_neg hfit]

/-- The ghost last-handled counter never decreases under a list of
operations. -/
theorem lastRaw_le_foldl (l : List Op) (σ : State) (h : SinkInv σ) :
    σ.lastRaw ≤ (l.foldl step σ).lastRaw := by
  induction l generalizing σ with
  | nil => exact le_refl _
  | cons op rest ih =>
      exact le_trans (lastRaw_le_step σ op h) (ih (step σ op) (inv_step σ op h))

/-- Each operation advances the ghost sequence counter by exactly the
number of sequence IDs it consumes. -/
theorem rawNext_step (σ : State) (op : Op) :
    (step σ op).rawNext = σ.rawNext + assignedCount op := by
  cases op with
  | handleEntry p => rfl
  | handleDropped k => rfl
  | clear => rfl
  | attachDrain =>
      show (attachDrain σ).rawNext = σ.rawNext + 0
      unfold attachDrain
      split <;> rfl
  | detachDrain =>
      show (detachDrain σ).rawNext = σ.rawNext + 0
      unfold detachDrain
      split <;> rfl
  | attachListener => rfl
  | detachListener => rfl
  | pull b =>
      show (getEntry σ b).2.rawNext = σ.rawNext + 0
      unfold getEntry
      by_cases hatt : σ.attached = false
      · rw [if_pos hatt]
        exact rfl
      · rw [if_neg hatt]
        rcases hE : σ.entries with _ | ⟨e, rest⟩
        · exact rfl
        · simp only [getEntryAux]
          by_cases hfit : lenRest e ≤ b
          · rw [if_pos hfit]
            exact rfl
          · rw [if_neg hfit]
            exact rfl

/-- A list of operations advances the ghost sequence counter by the total
number of sequence IDs it consumes. -/
theorem rawNext_foldl (l : List Op) (σ : State) :
    (l.foldl step σ).rawNext = σ.rawNext + (l.map assignedCount).sum := by
  induction l generalizing σ with
  | nil => rfl
  | cons op rest ih =>
      show (rest.foldl step (step σ op)).rawNext =
        σ.rawNext + (assignedCount op + (rest.map assignedCount).sum)
      rw [ih, rawNext_step]
      omega

/-- The drain pull never changes the buffer capacity, the attachment
state, the sequence counters, the listener count, or the attach-time
ghost records. -/
theorem getEntry_frame (σ : State) (b : Nat) :
    (getEntry σ b).2.attached = σ.attached ∧ (getEntry σ b).2.cap = σ.cap ∧
    (getEntry σ b).2.rawNext = σ.rawNext ∧ (getEntry σ b).2.seqId = σ.seqId ∧
    (getEntry σ b).2.listeners = σ.listeners ∧
    (getEntry σ b).2.attachSeq = σ.attachSeq ∧
    (getEntry σ b).2.attachRaw = σ.attachRaw := by
  unfold getEntry
  by_cases hatt : σ.attached = false
  · rw [if_pos hatt]
    exact ⟨rfl, rfl, rfl, rfl, rfl, rfl, rfl⟩
  · rw [if_neg hatt]
    rcases hE : σ.entries with _ | ⟨e, rest⟩
    · exact ⟨rfl, rfl, rfl, rfl, rfl, rfl, rfl⟩
    · simp only [getEntryAux]
      by_cases hfit : lenRest e ≤ b
      · rw [if_pos hfit]
        exact ⟨rfl, rfl, rfl, rfl, rfl, rfl, rfl⟩
      · rw [if_neg hfit]
        exact ⟨rfl, rfl, rfl, rfl, rfl, rfl, rfl⟩

/-- The buffer capacity is never changed by any operation. -/
theorem cap_step (σ : State) (op : Op) : (step σ op).cap = σ.cap := by
  cases op with
  | handleEntry p => rfl
  | handleDropped k => rfl
  | clear => rfl
  | attachDrain =>
      show (attachDrain σ).cap = σ.cap
      unfold attachDrain
      split <;> rfl
  | detachDrain =>
      show (detachDrain σ).cap = σ.cap
      unfold detachDrain
      split <;> rfl
  | attachListener => rfl
  | detachListener => rfl
  | pull b => exact (getEntry_frame σ b).2.1

/-- The buffer capacity of any reachable state is the construction-time
capacity. -/
theorem cap_run (cap : Nat) (ops : List Op) : (run cap ops).cap = cap := by
  suffices h : ∀ σ : State, (ops.foldl step σ).cap = σ.cap by
    exact h (init cap)
  induction ops with
  | nil => intro σ; rfl
  | cons op rest ih =>
      intro σ
      exact (ih (step σ op)).trans (cap_step σ op)

/-- Writer-side operations never touch the drain cursor or its ghost
accounting fields. -/
theorem writer_step (σ : State) (op : Op) (h : isWriterOp op = true) :
    (step σ op).lastRaw = σ.lastRaw ∧ (step σ op).lastHandled = σ.lastHandled ∧
    (step σ op).attached = σ.attached ∧ (step σ op).attachSeq = σ.attachSeq ∧
    (step σ op).attachRaw = σ.attachRaw ∧
    (step σ op).reportedSum = σ.reportedSum ∧
    (step σ op).receivedCount = σ.receivedCount := by
  cases op with
  | handleEntry p => exact ⟨rfl, rfl, rfl, rfl, rfl, rfl, rfl⟩
  | handleDropped k => exact ⟨rfl, rfl, rfl, rfl, rfl, rfl, rfl⟩
  | clear => exact ⟨rfl, rfl, rfl, rfl, rfl, rfl, rfl⟩
  | attachDrain => simp [isWriterOp] at h
  | detachDrain => simp [isWriterOp] at h
  | attachListener => simp [isWriterOp] at h
  | detachListener => simp [isWriterOp] at h
  | pull b => simp [isWriterOp] at h

/-- A list of writer-side operations never touches the drain cursor or
its ghost accounting fields. -/
theorem writer_foldl (l : List Op) (σ : State) (h : ∀ op ∈ l, isWriterOp op = true) :
    (l.foldl step σ).lastRaw = σ.lastRaw ∧
    (l.foldl step σ).lastHandled = σ.lastHandled ∧
    (l.foldl step σ).attached = σ.attached := by
  induction l generalizing σ with
  | nil => exact ⟨rfl, rfl, rfl⟩
  | cons op rest ih =>
      have h1 := writer_step σ op (h op (List.mem_cons_self op rest))
      have h2 := ih (step σ op) (fun o ho => h o (List.mem_cons_of_mem op ho))
      exact ⟨h2.1.trans h1.1, h2.2.1.trans h1.2.1, h2.2.2.trans h1.2.2.1⟩

/-- A successful pull returns an entry whose ghost raw ID is at least the
ghost last-handled ID, records its successor as the new last-handled ID,
and returns an embedded ID that is the reduction of the raw one. -/
theorem getEntry_ok (σ : State) (b : Nat) (h : SinkInv σ)
    (hok : (getEntry σ b).1.status = Status.ok) :
    σ.lastRaw ≤ (getEntry σ b).1.raw ∧
    (getEntry σ b).2.lastRaw = (getEntry σ b).1.raw + 1 ∧
    (getEntry σ b).1.seq = (getEntry σ b).1.raw % U32 ∧
    (getEntry σ b).1.raw < σ.rawNext := by
  unfold getEntry at hok ⊢
  by_cases hatt : σ.attached = false
  · rw [if_pos hatt] at hok ⊢
    exact absurd hok (by simp)
  · rw [if_neg hatt] at hok ⊢
    rcases hE : σ.entries with _ | ⟨e, rest⟩
    · rw [hE] at hok
      simp only [getEntryAux] at hok ⊢
      exact absurd hok (by simp)
    · rw [hE] at hok
      simp only [getEntryAux] at hok ⊢
      by_cases hfit : lenRest e ≤ b
      · rw [if_pos hfit] at hok ⊢
        obtain ⟨g1, g2, g3⟩ := h.hEnt e (by rw [hE]; exact List.mem_cons_self e rest)
        exact ⟨g2, rfl, g1, g3⟩
      · rw [if_neg hfit] at hok
        exact absurd hok (by simp)

/-- A pull on a detached drain returns FailedPrecondition with a zero drop
count and leaves the state unchanged. -/
theorem getEntry_eq_detached (σ : State) (b : Nat) (hdet : σ.attached = false) :
    getEntry σ b = (⟨Status.failedPrecondition, [], 0, 0, 0⟩, σ) := by
  unfold getEntry
  rw [if_pos hdet]

/-- A pull on an attached drain with no readable frame returns OutOfRange,
reports the sequence gap, and catches the last-handled ID up to S. -/
theorem getEntry_eq_empty (σ : State) (b : Nat) (hatt : σ.attached = true)
    (hemp : σ.entries = []) :
    getEntry σ b =
      (⟨Status.outOfRange, [], 0, 0, (σ.seqId + U32 - σ.lastHandled) % U32⟩,
       { σ with
         lastHandled := σ.seqId
         lastRaw := σ.rawNext
         reportedSum := σ.reportedSum + (σ.seqId + U32 - σ.lastHandled) % U32 }) := by
  unfold getEntry
  rw [if_neg (by simp [hatt]), hemp]
  simp only [getEntryAux]
  rw [hemp]

/-- A pull on an attached drain whose next frame fits the buffer returns
the user bytes, reports the sequence gap, and advances the cursor. -/
theorem getEntry_eq_ok (σ : State) (b : Nat) (hatt : σ.attached = true)
    (e : Entry) (rest : List Entry) (hE : σ.entries = e :: rest)
    (hfit : lenRest e ≤ b) :
    getEntry σ b =
      (⟨Status.ok, e.payload, e.seq, e.raw, (e.seq + U32 - σ.lastHandled) % U32⟩,
       { σ with
         entries := rest
         lastHandled := (e.seq + 1) % U32
         lastRaw := e.raw + 1
         reportedSum := σ.reportedSum + (e.seq + U32 - σ.lastHandled) % U32
         receivedCount := σ.receivedCount + 1 }) := by
  unfold getEntry
  rw [if_neg (by simp [hatt]), hE]
  simp only [getEntryAux]
  rw [if_pos hfit]

/-- A pull on an attached drain whose next frame does not fit the buffer
returns ResourceExhausted with a zero drop count and leaves the state
unchanged. -/
theorem getEntry_eq_tooSmall (σ : State) (b : Nat) (hatt : σ.attached = true)
    (e : Entry) (rest : List Entry) (hE : σ.entries = e :: rest)
    (hsmall : ¬ lenRest e ≤ b) :
    getEntry σ b = (⟨Status.resourceExhausted, [], 0, 0, 0⟩, σ) := by
  unfold getEntry
  rw [if_neg (by simp [hatt]), hE]
  simp only [getEntryAux]
  rw [if_neg hsmall]

/-- Attaching a detached drain resets its visible frames and points its
last-handled ID and ghost accounting at the current sequence counter. -/
theorem attachDrain_eq (σ : State) (hdet : σ.attached = false) :
    attachDrain σ =
      { σ with
        attached := true
        entries := []
        lastHandled := σ.seqId
        lastRaw := σ.rawNext
        attachSeq := σ.seqId
        attachRaw := σ.rawNext
        reportedSum := 0
        receivedCount := 0 } := by
  unfold attachDrain
  rw [if_neg (by simp [hdet])]

/-- HandleEntry on an empty buffer stores exactly the new frame when the
payload is admissible. -/
theorem handleEntry_empty (σ : State) (p : List Nat) (hemp : σ.entries = [])
    (hcond : 0 < p.length ∧ framedSize ⟨σ.seqId, σ.rawNext, p⟩ ≤ σ.cap) :
    handleEntry σ p =
      { σ with
        seqId := (σ.seqId + 1) % U32
        rawNext := σ.rawNext + 1
        notifyCount := σ.notifyCount + σ.listeners
        entries := [⟨σ.seqId, σ.rawNext, p⟩] } := by
  unfold handleEntry
  dsimp only
  rw [if_pos hcond, hemp]
  rfl

/-- The capacity is unchanged by a list of operations. -/
theorem cap_foldl (l : List Op) (σ : State) : (l.foldl step σ).cap = σ.cap := by
  induction l generalizing σ with
  | nil => rfl
  | cons op rest ih => exact (ih (step σ op)).trans (cap_step σ op)

/-- C1, counterexample: the spec formula drop_count = (s_e - L - 1) mod
2^32 + entries_dropped is falsified by the first pull after an attach at
S = 0 followed by one write: the pull succeeds with embedded sequence ID
s_e = 0 while the last-handled ID L is 0 and no eviction has happened,
the reported drop count is 0, yet the formula of the claim would give
(0 - 0 - 1) mod 2^32 + 0 = 4294967295. -/
theorem c1_counterexample :
    (getEntry (run 64 [Op.attachDrain, Op.handleEntry [97, 97]]) 16).1.status = Status.ok ∧
    (getEntry (run 64 [Op.attachDrain, Op.handleEntry [97, 97]]) 16).1.seq = 0 ∧
    (run 64 [Op.attachDrain, Op.handleEntry [97, 97]]).lastHandled = 0 ∧
    (getEntry (run 64 [Op.attachDrain, Op.handleEntry [97, 97]]) 16).1.dropCount = 0 ∧
    ¬ (getEntry (run 64 [Op.attachDrain, Op.handleEntry [97, 97]]) 16).1.dropCount =
        (0 + U32 - 0 - 1) % U32 + 0 := by
  decide

/-- C1 (amended): on every successful pull by an attached drain of an
entry with embedded sequence ID s_e, when the last-handled ID was L the
reported drop count is (s_e - L) mod 2^32 — equal, at the ghost level, to
the number of sequence IDs assigned since the drain last caught up that
the drain never received, with evictions included in this gap rather than
in a separate entries_dropped counter — and afterwards the last-handled
ID is s_e + 1 mod 2^32. -/
theorem c1_drop_count (cap b : Nat) (ops : List Op) (e : Entry) (rest : List Entry)
    (hatt : (run cap ops).attached = true)
    (hE : (run cap ops).entries = e :: rest)
    (hfit : lenRest e ≤ b) :
    (getEntry (run cap ops) b).1.status = Status.ok ∧
    (getEntry (run cap ops) b).1.payload = e.payload ∧
    (getEntry (run cap ops) b).1.dropCount =
      (e.seq + U32 - (run cap ops).lastHandled) % U32 ∧
    (getEntry (run cap ops) b).1.dropCount =
      (e.raw - (run cap ops).lastRaw) % U32 ∧
    (getEntry (run cap ops) b).2.lastHandled = (e.seq + 1) % U32 := by
  have hInv := inv_run cap ops
  obtain ⟨g1, g2, g3⟩ := hInv.hEnt e (by rw [hE]; exact List.mem_cons_self e rest)
  rw [getEntry_eq_ok (run cap ops) b hatt e rest hE hfit]
  refine ⟨rfl, rfl, rfl, ?_, rfl⟩
  show (e.seq + U32 - (run cap ops).lastHandled) % U32 =
    (e.raw - (run cap ops).lastRaw) % U32
  rw [g1, hInv.hL]
  exact drop_mod e.raw (run cap ops).lastRaw g2

/-- C1 witness instance of the amended drop-count formula. -/
theorem c1_drop_count_witness :
    (getEntry (run 64 [Op.attachDrain, Op.handleEntry [97, 97]]) 16).1.dropCount =
      ((⟨0, 0, [97, 97]⟩ : Entry).seq + U32 -
        (run 64 [Op.attachDrain, Op.handleEntry [97, 97]]).lastHandled) % U32 ∧
    (getEntry (run 64 [Op.attachDrain, Op.handleEntry [97, 97]]) 16).2.lastHandled =
      ((⟨0, 0, [97, 97]⟩ : Entry).seq + 1) % U32 :=
  ⟨(c1_drop_count 64 16 [Op.attachDrain, Op.handleEntry [97, 97]]
      ⟨0, 0, [97, 97]⟩ [] (by decide) (by decide) (by decide)).2.2.1,
   (c1_drop_count 64 16 [Op.attachDrain, Op.handleEntry [97, 97]]
      ⟨0, 0, [97, 97]⟩ [] (by decide) (by decide) (by decide)).2.2.2.2⟩

/-- C2: complete accounting.  After any finite sequence of operations
following the attach of the drain, at a quiescent point — the drain is
attached, has no pending entry, and performs a pull, which returns empty —
the sum of the drop counts it reported on its returns (successful or
empty) plus the number of entries it received equals S minus S at attach,
modulo 2^32. -/
theorem c2_complete_accounting (cap b : Nat) (ops : List Op)
    (hatt : (run cap ops).attached = true)
    (hemp : (run cap ops).entries = []) :
    (getEntry (run cap ops) b).1.status = Status.outOfRange ∧
    ((getEntry (run cap ops) b).2.reportedSum +
        (getEntry (run cap ops) b).2.receivedCount) % U32 =
      ((run cap ops).seqId + U32 - (run cap ops).attachSeq) % U32 := by
  obtain ⟨hS, hL, hA, hALe, hLLe, hEnt, hSorted, hAcc⟩ := inv_run cap ops
  rw [getEntry_eq_empty (run cap ops) b hatt hemp]
  refine ⟨rfl, ?_⟩
  show ((run cap ops).reportedSum +
      ((run cap ops).seqId + U32 - (run cap ops).lastHandled) % U32 +
      (run cap ops).receivedCount) % U32 =
    ((run cap ops).seqId + U32 - (run cap ops).attachSeq) % U32
  rw [hS, hL, hA, drop_mod (run cap ops).rawNext (run cap ops).lastRaw hLLe,
    drop_mod (run cap ops).rawNext (run cap ops).attachRaw (le_trans hALe hLLe)]
  simp only [U32] at hAcc ⊢
  omega

/-- C2 witness instance of the accounting identity. -/
theorem c2_complete_accounting_witness :
    ((getEntry (run 64 [Op.attachDrain, Op.handleEntry [97], Op.pull 16,
          Op.handleDropped 2]) 16).2.reportedSum +
        (getEntry (run 64 [Op.attachDrain, Op.handleEntry [97], Op.pull 16,
          Op.handleDropped 2]) 16).2.receivedCount) % U32 =
      ((run 64 [Op.attachDrain, Op.handleEntry [97], Op.pull 16,
          Op.handleDropped 2]).seqId + U32 -
        (run 64 [Op.attachDrain, Op.handleEntry [97], Op.pull 16,
          Op.handleDropped 2]).attachSeq) % U32 :=
  (c2_complete_accounting 64 16
    [Op.attachDrain, Op.handleEntry [97], Op.pull 16, Op.handleDropped 2]
    (by decide) (by decide)).2

/-- C3: monotone sequence IDs.  Any two successive successful pulls by the
drain, with arbitrary operations in between, yield entries whose ghost raw
sequence IDs strictly increase; consequently, when fewer than 2^32 IDs
separate them, the embedded 32-bit sequence IDs differ, so the second is
never equal to or behind the first modulo 2^32. -/
theorem c3_monotone_ids (cap b1 b2 : Nat) (ops1 ops2 : List Op)
    (h1 : (getEntry (run cap ops1) b1).1.status = Status.ok)
    (h2 : (getEntry (List.foldl step (getEntry (run cap ops1) b1).2 ops2) b2).1.status =
      Status.ok) :
    (getEntry (run cap ops1) b1).1.raw <
      (getEntry (List.foldl step (getEntry (run cap ops1) b1).2 ops2) b2).1.raw ∧
    ((getEntry (List.foldl step (getEntry (run cap ops1) b1).2 ops2) b2).1.raw -
        (getEntry (run cap ops1) b1).1.raw < U32 →
      ¬ (getEntry (run cap ops1) b1).1.seq =
        (getEntry (List.foldl step (getEntry (run cap ops1) b1).2 ops2) b2).1.seq) := by
  have hInv1 := inv_run cap ops1
  obtain ⟨hge1, hlast1, hseq1, hlt1⟩ := getEntry_ok (run cap ops1) b1 hInv1 h1
  have hInv1a : SinkInv (getEntry (run cap ops1) b1).2 := inv_getEntry (run cap ops1) b1 hInv1
  have hInv2 := inv_foldl ops2 (getEntry (run cap ops1) b1).2 hInv1a
  have hmono := lastRaw_le_foldl ops2 (getEntry (run cap ops1) b1).2 hInv1a
  obtain ⟨hge2, hlast2, hseq2, hlt2⟩ :=
    getEntry_ok (List.foldl step (getEntry (run cap ops1) b1).2 ops2) b2 hInv2 h2
  rw [hlast1] at hmono
  have hmain : (getEntry (run cap ops1) b1).1.raw <
      (getEntry (List.foldl step (getEntry (run cap ops1) b1).2 ops2) b2).1.raw := by
    omega
  refine ⟨hmain, ?_⟩
  intro hlt heq
  rw [hseq1, hseq2] at heq
  simp only [U32] at heq hlt
  omega

/-- C3 witness instance on two consecutive pulls with nothing in
between. -/
theorem c3_monotone_ids_witness :
    (getEntry (run 64 [Op.attachDrain, Op.handleEntry [97], Op.handleEntry [98]]) 16).1.raw <
      (getEntry (List.foldl step
        (getEntry (run 64 [Op.attachDrain, Op.handleEntry [97], Op.handleEntry [98]]) 16).2
        []) 16).1.raw :=
  (c3_monotone_ids 64 16 16 [Op.attachDrain, Op.handleEntry [97], Op.handleEntry [98]] []
    (by decide) (by decide)).1

/-- C4: Clear leaves the ring buffer empty but the sequence counter S
unchanged; consequently, for a drain that had caught up at its previous
pull, after any further writer operations, a Clear, and one more write,
the next successful pull returns that write and reports a drop count equal
to the total number of HandleEntry calls and HandleDropped increments
performed since the previous pull (modulo 2^32), including the entries
wiped by the Clear. -/
theorem c4_clear_preserves_seq (cap b : Nat) (ops w : List Op) (p : List Nat)
    (hW : ∀ op ∈ w, isWriterOp op = true)
    (hatt : (run cap ops).attached = true)
    (hcaught : (run cap ops).lastRaw = (run cap ops).rawNext)
    (hp : 0 < p.length)
    (hfit : framedSize ⟨(clear (List.foldl step (run cap ops) w)).seqId,
        (clear (List.foldl step (run cap ops) w)).rawNext, p⟩ ≤ cap)
    (hbuf : varintSize (clear (List.foldl step (run cap ops) w)).seqId + p.length ≤ b) :
    (clear (List.foldl step (run cap ops) w)).seqId =
      (List.foldl step (run cap ops) w).seqId ∧
    (clear (List.foldl step (run cap ops) w)).entries = [] ∧
    (getEntry (handleEntry (clear (List.foldl step (run cap ops) w)) p) b).1.status =
      Status.ok ∧
    (getEntry (handleEntry (clear (List.foldl step (run cap ops) w)) p) b).1.payload = p ∧
    (getEntry (handleEntry (clear (List.foldl step (run cap ops) w)) p) b).1.dropCount =
      (w.map assignedCount).sum % U32 := by
  have hInv1 := inv_run cap ops
  have hInv2 := inv_foldl w (run cap ops) hInv1
  have hw := writer_foldl w (run cap ops) hW
  have hraw2 := rawNext_foldl w (run cap ops)
  have hcap3 : (clear (List.foldl step (run cap ops) w)).cap = cap := by
    show (List.foldl step (run cap ops) w).cap = cap
    rw [cap_foldl, cap_run]
  have hcond : 0 < p.length ∧
      framedSize ⟨(clear (List.foldl step (run cap ops) w)).seqId,
        (clear (List.foldl step (run cap ops) w)).rawNext, p⟩ ≤
        (clear (List.foldl step (run cap ops) w)).cap :=
    ⟨hp, by rw [hcap3]; exact hfit⟩
  have h4 := handleEntry_empty (clear (List.foldl step (run cap ops) w)) p rfl hcond
  have hatt4 : (handleEntry (clear (List.foldl step (run cap ops) w)) p).attached = true := by
    show (List.foldl step (run cap ops) w).attached = true
    rw [hw.2.2]
    exact hatt
  have hent4 : (handleEntry (clear (List.foldl step (run cap ops) w)) p).entries =
      [⟨(clear (List.foldl step (run cap ops) w)).seqId,
        (clear (List.foldl step (run cap ops) w)).rawNext, p⟩] := by
    rw [h4]
  refine ⟨rfl, rfl, ?_, ?_, ?_⟩
  · rw [getEntry_eq_ok (handleEntry (clear (List.foldl step (run cap ops) w)) p) b hatt4
      ⟨(clear (List.foldl step (run cap ops) w)).seqId,
        (clear (List.foldl step (run cap ops) w)).rawNext, p⟩ [] hent4 hbuf]
  · rw [getEntry_eq_ok (handleEntry (clear (List.foldl step (run cap ops) w)) p) b hatt4
      ⟨(clear (List.foldl step (run cap ops) w)).seqId,
        (clear (List.foldl step (run cap ops) w)).rawNext, p⟩ [] hent4 hbuf]
  · rw [getEntry_eq_ok (handleEntry (clear (List.foldl step (run cap ops) w)) p) b hatt4
      ⟨(clear (List.foldl step (run cap ops) w)).seqId,
        (clear (List.foldl step (run cap ops) w)).rawNext, p⟩ [] hent4 hbuf]
    show ((List.foldl step (run cap ops) w).seqId + U32 -
        (List.foldl step (run cap ops) w).lastHandled) % U32 =
      (w.map assignedCount).sum % U32
    rw [hInv2.hS, hraw2, hw.2.1, hInv1.hL, hcaught]
    rw [drop_mod ((run cap ops).rawNext + (w.map assignedCount).sum) (run cap ops).rawNext
      (Nat.le_add_right _ _)]
    simp only [U32]
    omega

/-- C4 witness instance: attach, write two entries, clear, write one
entry, pull; the drop count is the two wiped writes. -/
theorem c4_clear_preserves_seq_witness :
    (getEntry (handleEntry (clear (List.foldl step (run 64 [Op.attachDrain])
        [Op.handleEntry [97], Op.handleEntry [98]])) [99]) 16).1.payload = [99] ∧
    (getEntry (handleEntry (clear (List.foldl step (run 64 [Op.attachDrain])
        [Op.handleEntry [97], Op.handleEntry [98]])) [99]) 16).1.dropCount =
      ([Op.handleEntry [97], Op.handleEntry [98]].map assignedCount).sum % U32 :=
  ⟨(c4_clear_preserves_seq 64 16 [Op.attachDrain]
      [Op.handleEntry [97], Op.handleEntry [98]] [99]
      (by decide) (by decide) (by decide) (by decide) (by decide) (by decide)).2.2.2.1,
   (c4_clear_preserves_seq 64 16 [Op.attachDrain]
      [Op.handleEntry [97], Op.handleEntry [98]] [99]
      (by decide) (by decide) (by decide) (by decide) (by decide) (by decide)).2.2.2.2⟩

/-- C5: HandleDropped with argument k advances the sequence counter S by
exactly k modulo 2^32, writes no frame into the buffer, and notifies every
attached listener; in the concrete spec scenario S3 — attach, write a,
HandleDropped 5, write b — a drain pulls (a, 0) and then (b, 5), observing
the jump as a drop count. -/
theorem c5_handle_dropped :
    (∀ σ : State, ∀ k : Nat,
      (handleDropped σ k).seqId = (σ.seqId + k) % U32 ∧
      (handleDropped σ k).entries = σ.entries ∧
      (handleDropped σ k).notifyCount = σ.notifyCount + σ.listeners) ∧
    (getEntry (run 64 [Op.attachDrain, Op.handleEntry [97], Op.handleDropped 5,
      Op.handleEntry [98]]) 16).1 = ⟨Status.ok, [97], 0, 0, 0⟩ ∧
    (getEntry (getEntry (run 64 [Op.attachDrain, Op.handleEntry [97], Op.handleDropped 5,
      Op.handleEntry [98]]) 16).2 16).1 = ⟨Status.ok, [98], 6, 6, 5⟩ := by
  exact ⟨fun σ k => ⟨rfl, rfl, rfl⟩, by decide, by decide⟩

/-- C6: AttachDrain on a detached drain attaches it, sets its last-handled
ID L to the current sequence counter S, and places its cursor at the
current write offset: no pre-existing entry is visible, a pull immediately
after the attach returns empty with drop count 0, and an entry written
after the attach is visible — pulling it succeeds with its payload and
drop count 0. -/
theorem c6_attach_drain (cap b : Nat) (ops : List Op) (p : List Nat)
    (hdet : (run cap ops).attached = false)
    (hp : 0 < p.length)
    (hfit : framedSize ⟨(run cap ops).seqId, (run cap ops).rawNext, p⟩ ≤ cap)
    (hbuf : varintSize (run cap ops).seqId + p.length ≤ b) :
    (attachDrain (run cap ops)).attached = true ∧
    (attachDrain (run cap ops)).lastHandled = (run cap ops).seqId ∧
    (attachDrain (run cap ops)).entries = [] ∧
    (getEntry (attachDrain (run cap ops)) b).1.status = Status.outOfRange ∧
    (getEntry (attachDrain (run cap ops)) b).1.dropCount = 0 ∧
    (getEntry (handleEntry (attachDrain (run cap ops)) p) b).1.status = Status.ok ∧
    (getEntry (handleEntry (attachDrain (run cap ops)) p) b).1.payload = p ∧
    (getEntry (handleEntry (attachDrain (run cap ops)) p) b).1.dropCount = 0 := by
  have hA := attachDrain_eq (run cap ops) hdet
  have hatt1 : (attachDrain (run cap ops)).attached = true := by rw [hA]
  have hemp1 : (attachDrain (run cap ops)).entries = [] := by rw [hA]
  have hlh1 : (attachDrain (run cap ops)).lastHandled = (run cap ops).seqId := by rw [hA]
  have hseq1 : (attachDrain (run cap ops)).seqId = (run cap ops).seqId := by rw [hA]
  have hrawa : (attachDrain (run cap ops)).rawNext = (run cap ops).rawNext := by rw [hA]
  have hcap1 : (attachDrain (run cap ops)).cap = cap := by
    rw [hA]
    exact cap_run cap ops
  have hcond : 0 < p.length ∧
      framedSize ⟨(attachDrain (run cap ops)).seqId,
        (attachDrain (run cap ops)).rawNext, p⟩ ≤ (attachDrain (run cap ops)).cap := by
    refine ⟨hp, ?_⟩
    rw [hseq1, hrawa, hcap1]
    exact hfit
  have h4 := handleEntry_empty (attachDrain (run cap ops)) p hemp1 hcond
  have hatt4 : (handleEntry (attachDrain (run cap ops)) p).attached = true := hatt1
  have hent4 : (handleEntry (attachDrain (run cap ops)) p).entries =
      [⟨(attachDrain (run cap ops)).seqId, (attachDrain (run cap ops)).rawNext, p⟩] := by
    rw [h4]
  have hbuf4 : lenRest ⟨(attachDrain (run cap ops)).seqId,
      (attachDrain (run cap ops)).rawNext, p⟩ ≤ b := by
    show varintSize (attachDrain (run cap ops)).seqId + p.length ≤ b
    rw [hseq1]
    exact hbuf
  refine ⟨hatt1, hlh1, hemp1, ?_, ?_, ?_, ?_, ?_⟩
  · rw [getEntry_eq_empty (attachDrain (run cap ops)) b hatt1 hemp1]
  · rw [getEntry_eq_empty (attachDrain (run cap ops)) b hatt1 hemp1]
    show ((attachDrain (run cap ops)).seqId + U32 -
        (attachDrain (run cap ops)).lastHandled) % U32 = 0
    rw [hseq1, hlh1]
    simp only [U32]
    omega
  · rw [getEntry_eq_ok (handleEntry (attachDrain (run cap ops)) p) b hatt4
      ⟨(attachDrain (run cap ops)).seqId, (attachDrain (run cap ops)).rawNext, p⟩ []
      hent4 hbuf4]
  · rw [getEntry_eq_ok (handleEntry (attachDrain (run cap ops)) p) b hatt4
      ⟨(attachDrain (run cap ops)).seqId, (attachDrain (run cap ops)).rawNext, p⟩ []
      hent4 hbuf4]
  · rw [getEntry_eq_ok (handleEntry (attachDrain (run cap ops)) p) b hatt4
      ⟨(attachDrain (run cap ops)).seqId, (attachDrain (run cap ops)).rawNext, p⟩ []
      hent4 hbuf4]
    show ((attachDrain (run cap ops)).seqId + U32 -
        (attachDrain (run cap ops)).lastHandled) % U32 = 0
    rw [hseq1, hlh1]
    simp only [U32]
    omega

/-- C6 witness instance: entries written before the attach are invisible,
the first pull is empty with drop count 0, and a write after the attach is
pulled with drop count 0. -/
theorem c6_attach_drain_witness :
    (getEntry (attachDrain (run 64 [Op.handleEntry [120]])) 16).1.status =
      Status.outOfRange ∧
    (getEntry (attachDrain (run 64 [Op.handleEntry [120]])) 16).1.dropCount = 0 ∧
    (getEntry (handleEntry (attachDrain (run 64 [Op.handleEntry [120]])) [122]) 16).1.payload =
      [122] ∧
    (getEntry (handleEntry (attachDrain (run 64 [Op.handleEntry [120]])) [122]) 16).1.dropCount =
      0 :=
  ⟨(c6_attach_drain 64 16 [Op.handleEntry [120]] [122]
      (by decide) (by decide) (by decide) (by decide)).2.2.2.1,
   (c6_attach_drain 64 16 [Op.handleEntry [120]] [122]
      (by decide) (by decide) (by decide) (by decide)).2.2.2.2.1,
   (c6_attach_drain 64 16 [Op.handleEntry [120]] [122]
      (by decide) (by decide) (by decide) (by decide)).2.2.2.2.2.2.1,
   (c6_attach_drain 64 16 [Op.handleEntry [120]] [122]
      (by decide) (by decide) (by decide) (by decide)).2.2.2.2.2.2.2⟩

/-- C7, counterexample: after attach at S = 0 and HandleDropped 5, an
empty pull does not report the cursor eviction counter (no eviction has
happened, so that would be 0) and does not leave L unchanged: it reports
the full sequence gap 5 and advances L from 0 to 5. -/
theorem c7_counterexample :
    (getEntry (run 64 [Op.attachDrain, Op.handleDropped 5]) 16).1.status =
      Status.outOfRange ∧
    (run 64 [Op.attachDrain, Op.handleDropped 5]).lastHandled = 0 ∧
    (getEntry (run 64 [Op.attachDrain, Op.handleDropped 5]) 16).1.dropCount = 5 ∧
    (getEntry (run 64 [Op.attachDrain, Op.handleDropped 5]) 16).2.lastHandled = 5 ∧
    ¬ ((getEntry (run 64 [Op.attachDrain, Op.handleDropped 5]) 16).1.dropCount = 0 ∧
      (getEntry (run 64 [Op.attachDrain, Op.handleDropped 5]) 16).2.lastHandled =
        (run 64 [Op.attachDrain, Op.handleDropped 5]).lastHandled) := by
  decide

/-- C7 (amended): when a pull by an attached drain returns empty
(OutOfRange), the drain reports the full sequence gap (S - L) mod 2^32 —
which covers both ring-buffer evictions and HandleDropped increments since
its last pull — as the drop count, advances its last-handled ID L to S,
and leaves the readable frames unchanged. -/
theorem c7_empty_pull (cap b : Nat) (ops : List Op)
    (hatt : (run cap ops).attached = true)
    (hemp : (run cap ops).entries = []) :
    (getEntry (run cap ops) b).1.status = Status.outOfRange ∧
    (getEntry (run cap ops) b).1.dropCount =
      ((run cap ops).seqId + U32 - (run cap ops).lastHandled) % U32 ∧
    (getEntry (run cap ops) b).2.lastHandled = (run cap ops).seqId ∧
    (getEntry (run cap ops) b).2.entries = (run cap ops).entries := by
  rw [getEntry_eq_empty (run cap ops) b hatt hemp]
  exact ⟨rfl, rfl, rfl, rfl⟩

/-- C7 witness instance of the amended empty-pull behavior. -/
theorem c7_empty_pull_witness :
    (getEntry (run 64 [Op.attachDrain, Op.handleDropped 5]) 16).1.dropCount =
      ((run 64 [Op.attachDrain, Op.handleDropped 5]).seqId + U32 -
        (run 64 [Op.attachDrain, Op.handleDropped 5]).lastHandled) % U32 ∧
    (getEntry (run 64 [Op.attachDrain, Op.handleDropped 5]) 16).2.lastHandled =
      (run 64 [Op.attachDrain, Op.handleDropped 5]).seqId :=
  ⟨(c7_empty_pull 64 16 [Op.attachDrain, Op.handleDropped 5]
      (by decide) (by decide)).2.1,
   (c7_empty_pull 64 16 [Op.attachDrain, Op.handleDropped 5]
      (by decide) (by decide)).2.2.1⟩

/-- C8, counterexample: with 3 sequence IDs pending since the last pull,
a pull into a 2-byte buffer for a 5-byte entry returns ResourceExhausted
with drop_count_out set to 0, not to the accumulated drop count 3, which a
retry with a 16-byte buffer then reports. -/
theorem c8_counterexample :
    (getEntry (run 64 [Op.attachDrain, Op.handleDropped 3,
      Op.handleEntry [104, 101, 108, 108, 111]]) 2).1.status =
      Status.resourceExhausted ∧
    (getEntry (run 64 [Op.attachDrain, Op.handleDropped 3,
      Op.handleEntry [104, 101, 108, 108, 111]]) 2).1.dropCount = 0 ∧
    (getEntry (run 64 [Op.attachDrain, Op.handleDropped 3,
      Op.handleEntry [104, 101, 108, 108, 111]]) 16).1.dropCount = 3 ∧
    ¬ (getEntry (run 64 [Op.attachDrain, Op.handleDropped 3,
      Op.handleEntry [104, 101, 108, 108, 111]]) 2).1.dropCount = 3 := by
  decide

/-- C8 (amended): when the buffer passed to an attached drain pull cannot
hold the next entry, the pull returns ResourceExhausted with
drop_count_out set to zero, the state — cursor included — is unchanged,
and a subsequent pull with a large enough buffer returns the same entry;
the accumulated drop count is reported on that later pull, not on the
failing call. -/
theorem c8_buffer_too_small (cap b b2 : Nat) (ops : List Op) (e : Entry)
    (rest : List Entry)
    (hatt : (run cap ops).attached = true)
    (hE : (run cap ops).entries = e :: rest)
    (hsmall : ¬ lenRest e ≤ b)
    (hbig : lenRest e ≤ b2) :
    (getEntry (run cap ops) b).1.status = Status.resourceExhausted ∧
    (getEntry (run cap ops) b).1.dropCount = 0 ∧
    (getEntry (run cap ops) b).2 = run cap ops ∧
    (getEntry ((getEntry (run cap ops) b).2) b2).1.status = Status.ok ∧
    (getEntry ((getEntry (run cap ops) b).2) b2).1.payload = e.payload := by
  rw [getEntry_eq_tooSmall (run cap ops) b hatt e rest hE hsmall]
  refine ⟨rfl, rfl, rfl, ?_, ?_⟩
  · rw [getEntry_eq_ok (run cap ops) b2 hatt e rest hE hbig]
  · rw [getEntry_eq_ok (run cap ops) b2 hatt e rest hE hbig]

/-- C8 witness instance of the amended too-small behavior. -/
theorem c8_buffer_too_small_witness :
    (getEntry (run 64 [Op.attachDrain, Op.handleDropped 3,
      Op.handleEntry [104, 101, 108, 108, 111]]) 2).1.status =
      Status.resourceExhausted ∧
    (getEntry ((getEntry (run 64 [Op.attachDrain, Op.handleDropped 3,
      Op.handleEntry [104, 101, 108, 108, 111]]) 2).2) 16).1.payload =
      (⟨3, 3, [104, 101, 108, 108, 111]⟩ : Entry).payload :=
  ⟨(c8_buffer_too_small 64 2 16 [Op.attachDrain, Op.handleDropped 3,
      Op.handleEntry [104, 101, 108, 108, 111]] ⟨3, 3, [104, 101, 108, 108, 111]⟩ []
      (by decide) (by decide) (by decide) (by decide)).1,
   (c8_buffer_too_small 64 2 16 [Op.attachDrain, Op.handleDropped 3,
      Op.handleEntry [104, 101, 108, 108, 111]] ⟨3, 3, [104, 101, 108, 108, 111]⟩ []
      (by decide) (by decide) (by decide) (by decide)).2.2.2.2⟩

/-- C9: every pull on a detached drain returns FailedPrecondition with no
entry and a zero drop count and changes nothing; and the attachment state
of a drain is changed only by AttachDrain and DetachDrain — every other
operation preserves it, so Detached and Attached are the only states. -/
theorem c9_detached_pull (σ : State) (b : Nat) (hdet : σ.attached = false) :
    (getEntry σ b).1.status = Status.failedPrecondition ∧
    (getEntry σ b).1.payload = [] ∧
    (getEntry σ b).1.dropCount = 0 ∧
    (getEntry σ b).2 = σ ∧
    (∀ τ : State, ∀ op : Op, ¬ op = Op.attachDrain → ¬ op = Op.detachDrain →
      (step τ op).attached = τ.attached) := by
  rw [getEntry_eq_detached σ b hdet]
  refine ⟨rfl, rfl, rfl, rfl, ?_⟩
  intro τ op h1 h2
  cases op with
  | handleEntry p => rfl
  | handleDropped k => rfl
  | clear => rfl
  | attachDrain => exact absurd rfl h1
  | detachDrain => exact absurd rfl h2
  | attachListener => rfl
  | detachListener => rfl
  | pull bb => exact (getEntry_frame τ bb).1

/-- C9 witness instance on a freshly constructed, never attached drain. -/
theorem c9_detached_pull_witness :
    (getEntry (run 64 []) 16).1.status = Status.failedPrecondition ∧
    (getEntry (run 64 []) 16).2 = run 64 [] :=
  ⟨(c9_detached_pull (run 64 []) 16 (by decide)).1,
   (c9_detached_pull (run 64 []) 16 (by decide)).2.2.2.1⟩

/-- C10: every HandleEntry call advances the sequence counter by exactly
one modulo 2^32 — also when pushing fails because the framed entry is
larger than the buffer, in which case the stored frames are unchanged —
and an attached drain later accounts for the failed entry as a dropped
one: with an 8-byte buffer, a 10-byte write fails but consumes sequence
ID 0, and the next write is pulled with drop count 1. -/
theorem c10_handle_entry (σ : State) (p : List Nat)
    (hbig : σ.cap < framedSize ⟨σ.seqId, σ.rawNext, p⟩) :
    (handleEntry σ p).seqId = (σ.seqId + 1) % U32 ∧
    (handleEntry σ p).rawNext = σ.rawNext + 1 ∧
    (handleEntry σ p).entries = σ.entries ∧
    (getEntry (run 8 [Op.attachDrain, Op.handleEntry [1, 2, 3, 4, 5, 6, 7, 8, 9, 10],
      Op.handleEntry [99]]) 16).1 = ⟨Status.ok, [99], 1, 1, 1⟩ := by
  have hneg : ¬ (0 < p.length ∧ framedSize ⟨σ.seqId, σ.rawNext, p⟩ ≤ σ.cap) := by
    rintro ⟨h1, h2⟩
    omega
  refine ⟨rfl, rfl, ?_, by decide⟩
  show (if 0 < p.length ∧ framedSize ⟨σ.seqId, σ.rawNext, p⟩ ≤ σ.cap then
      evict σ.cap (framedSize ⟨σ.seqId, σ.rawNext, p⟩) σ.entries ++
        [⟨σ.seqId, σ.rawNext, p⟩]
    else σ.entries) = σ.entries
  rw [if_neg hneg]

/-- C10 witness instance: a write whose frame exceeds the 8-byte buffer
still advances the sequence counter and stores nothing. -/
theorem c10_handle_entry_witness :
    (handleEntry (run 8 [Op.attachDrain]) [1, 2, 3, 4, 5, 6, 7, 8, 9, 10]).seqId =
      ((run 8 [Op.attachDrain]).seqId + 1) % U32 ∧
    (handleEntry (run 8 [Op.attachDrain]) [1, 2, 3, 4, 5, 6, 7, 8, 9, 10]).entries =
      (run 8 [Op.attachDrain]).entries :=
  ⟨(c10_handle_entry (run 8 [Op.attachDrain]) [1, 2, 3, 4, 5, 6, 7, 8, 9, 10]
      (by decide)).1,
   (c10_handle_entry (run 8 [Op.attachDrain]) [1, 2, 3, 4, 5, 6, 7, 8, 9, 10]
      (by decide)).2.2.1⟩

end PwMultiSink
